import Mathlib

/-!
Verification of the chat-app server core: the socket layer of
`src/server/index.js` (auth middleware, connection handler, message relay,
typing relay, presence broadcast), the HTTP message routes of
`src/server/routes/messageRoutes.js`, the user routes of
`src/server/routes/userRoutes.js`, and the auth controller of
`src/server/controller/authController.js`, shallowly embedded as pure
Lean functions over explicit state.
-/

namespace ChatApp

/-- A user record of the user directory. The schema file
`src/server/model/User.js` is not part of the sources; the fields follow
the data model of the spec (identifier, display name, presence state,
last-seen timestamp, creation timestamp) and the field names used by the
routes and controllers. The credential hash is omitted: no embedded
operation reads it. -/
structure User where
  id        : String
  username  : String
  status    : String
  lastSeen  : Option Nat
  createdAt : Nat
deriving DecidableEq, Repr

/-- A message record. The schema file `src/server/model/Message.js` is not
part of the sources; fields follow the data model of the spec and the
field names used by `messageRoutes.js` (`sender`, `recipient`, `content`,
`read`, `createdAt`); the `read` flag defaults to `false` on creation. -/
structure Message where
  sender    : String
  recipient : String
  content   : String
  read      : Bool
  createdAt : Nat
deriving DecidableEq, Repr

/-- A live socket connection: the socket handle (`socket.id`) together with
the authenticated user id (`socket.userId`) that the connection joined as a
room (`socket.join(socket.userId)` in `index.js`). -/
structure Conn where
  handle : String
  userId : String
deriving DecidableEq, Repr

/-- The user id a handle is registered under, if any (a handle belongs to at
most one user). -/
def userOf (conns : List Conn) (h : String) : Option String :=
  (conns.find? (fun c => c.handle == h)).map Conn.userId

/-- The connection group of a user: all live connections joined to the room
named by that user id. -/
def group (conns : List Conn) (uid : String) : List Conn :=
  conns.filter (fun c => c.userId == uid)

/-- Payloads the server emits over the socket: `user:status`,
`message:receive`, and the relayed inbound `user:typing`. -/
inductive Wire
  | status (userId st : String)
  | msgReceive (fromUser message timestamp : String)
  | typing (fromUser : String) (isTyping : Bool)
deriving DecidableEq, Repr

/-- One server-side emission: `io.emit` (to all) or `io.to(room).emit`
(to one room). -/
inductive Emit
  | toAll (ev : Wire)
  | toRoom (room : String) (ev : Wire)
deriving DecidableEq, Repr

/-- A delivery of a payload to one concrete connection. -/
structure Delivery where
  handle : String
  ev     : Wire
deriving DecidableEq, Repr

/-- How the transport resolves an emission into concrete deliveries:
`io.emit` reaches every live connection; `io.to(room).emit` reaches the
connections joined to that room, i.e. the connections of the user the room
is named after. -/
def deliver (conns : List Conn) : Emit → List Delivery
  | .toAll ev => conns.map (fun c => ⟨c.handle, ev⟩)
  | .toRoom room ev => (conns.filter (fun c => c.userId == room)).map (fun c => ⟨c.handle, ev⟩)

/-- The client-to-server events the connection handler of `index.js`
reacts to: an admitted connection, `message:send`, `user:typing`, and
`disconnect`. -/
inductive ClientEvent
  | connect (handle userId : String)
  | msgSend (handle : String) (toUser message : String)
  | typing (handle : String) (toUser : String) (isTyping : Bool)
  | disconnect (handle : String)
deriving DecidableEq, Repr

/-- Result of one handler invocation: the user-directory store, the live
connections, and the emissions the handler issued. -/
structure StepOut where
  users : List User
  conns : List Conn
  emits : List Emit
deriving DecidableEq, Repr

/-- The connection handler of `src/server/index.js` (lines 88-125), one
event at a time. On `connection`: join the room named by the user id and
`io.emit` a `user:status` online event. On `message:send`: relay
`message:receive` to the recipient room with the sender id, the content and
the server clock (`new Date().toISOString()`), modelled by the parameter
`now`. On `user:typing`: relay to the recipient room. On `disconnect`:
`io.emit` a `user:status` offline event. The handler never touches the
user directory, which is therefore returned unchanged in every branch. -/
def sockStep (users : List User) (conns : List Conn) (now : String) :
    ClientEvent → StepOut
  | .connect h u => ⟨users, ⟨h, u⟩ :: conns, [.toAll (.status u "online")]⟩
  | .msgSend h toU m =>
    match userOf conns h with
    | some uid => ⟨users, conns, [.toRoom toU (.msgReceive uid m now)]⟩
    | none => ⟨users, conns, []⟩
  | .typing h toU b =>
    match userOf conns h with
    | some uid => ⟨users, conns, [.toRoom toU (.typing uid b)]⟩
    | none => ⟨users, conns, []⟩
  | .disconnect h =>
    match userOf conns h with
    | some uid => ⟨users, conns.filter (fun c => c.handle != h), [.toAll (.status uid "offline")]⟩
    | none => ⟨users, conns, []⟩

/-- Run the handler over a whole trace of client events, accumulating the
emissions in order. -/
def sockRun (users : List User) (conns : List Conn) (now : String) :
    List ClientEvent → StepOut
  | [] => ⟨users, conns, []⟩
  | e :: es =>
    let s := sockStep users conns now e
    let r := sockRun s.users s.conns now es
    ⟨r.users, r.conns, s.emits ++ r.emits⟩

/-- Number of broadcast `user:status` emissions for a given user and
status in a list of emissions. -/
def statusEmits (emits : List Emit) (u st : String) : Nat :=
  (emits.filter (fun e =>
    match e with
    | .toAll (.status v s) => v == u && s == st
    | _ => false)).length

/-- Number of connection events for a given user in a trace. -/
def connectCount (tr : List ClientEvent) (u : String) : Nat :=
  (tr.filter (fun e =>
    match e with
    | .connect _ v => v == u
    | _ => false)).length

/-- All concrete deliveries produced by one handler invocation, resolving
each emission against the post-step connections (on `connection` the new
socket has already joined before the emit; on `disconnect` the closing
socket is gone). -/
def stepDeliveries (users : List User) (conns : List Conn) (now : String)
    (e : ClientEvent) : List Delivery :=
  ((sockStep users conns now e).emits.map
    (deliver (sockStep users conns now e).conns)).flatten

/-- The socket authentication middleware of `src/server/index.js`
(lines 53-85). The JWT library is external: `verify` abstracts
`jwt.verify(token, JWT_SECRET)` returning the decoded subject id on
success and nothing when the token is malformed, expired or wrongly
signed; `findUser` abstracts `User.findById`. A missing token, a failed
verification, or an absent user each reject the attempt with the
`Authentication error` reason; otherwise the connection is admitted with
the decoded user id. -/
def socketAuth (verify : String → Option String) (findUser : String → Option User)
    (token : Option String) : Except String String :=
  match token with
  | none => .error "Authentication error"
  | some t =>
    match verify t with
    | none => .error "Authentication error"
    | some uid =>
      match findUser uid with
      | some _ => .ok uid
      | none => .error "Authentication error"

/-- Truthiness of an optional string body field, as JavaScript sees it:
absent or empty is falsy. -/
def falsy : Option String → Bool
  | none => true
  | some s => s == ""

/-- Ordering of messages by creation time, the `sort(\x7b createdAt: 1 \x7d)`
of the history route. -/
def byCreatedAt (m1 m2 : Message) : Prop := m1.createdAt ≤ m2.createdAt

instance : DecidableRel byCreatedAt := fun m1 m2 => Nat.decLe _ _

instance : IsTotal Message byCreatedAt := ⟨fun a b => Nat.le_total a.createdAt b.createdAt⟩

instance : IsTrans Message byCreatedAt := ⟨fun _ _ _ h1 h2 => Nat.le_trans h1 h2⟩

/-- Whether a message belongs to the conversation between two users: its
(sender, recipient) pair is (a, b) or (b, a). -/
def betweenPred (a b : String) (m : Message) : Bool :=
  (m.sender == a && m.recipient == b) || (m.sender == b && m.recipient == a)

/-- The history route GET /:userId/:recipientId of
`src/server/routes/messageRoutes.js` (lines 6-21): the stored messages
whose (sender, recipient) pair matches either direction of the
conversation, sorted by creation time ascending. -/
def getMessages (store : List Message) (userId recipientId : String) : List Message :=
  List.insertionSort byCreatedAt (store.filter (betweenPred userId recipientId))

/-- The creation route POST / of `messageRoutes.js` (lines 24-43): missing
(falsy) sender, recipient or content is a 400 and leaves the store
untouched; otherwise a record with `read := false` and the current time is
appended and returned with a 201. The result is the new store and the HTTP
status code. -/
def createMessage (store : List Message) (sender recipient content : Option String)
    (t : Nat) : List Message × Nat :=
  if falsy sender || falsy recipient || falsy content then (store, 400)
  else
    match sender, recipient, content with
    | some s, some r, some c => (store ++ [⟨s, r, c, false, t⟩], 201)
    | _, _, _ => (store, 400)

/-- The bulk mark-read route PATCH /read/:userId/:senderId of
`messageRoutes.js` (lines 45-59): `updateMany` with filter
(recipient = userId, sender = senderId, read = false) and update
(read = true). The result is the new store and the number of modified
records. -/
def markRead (store : List Message) (userId senderId : String) :
    List Message × Nat :=
  (store.map (fun m =>
      if m.recipient == userId && m.sender == senderId && !m.read
      then { m with read := true } else m),
   (store.filter (fun m =>
      m.recipient == userId && m.sender == senderId && !m.read)).length)

/-- A request to one of the three message routes, with its path
parameters and body fields. -/
inductive MsgRequest
  | history (userId recipientId : String)
  | create (sender recipient content : Option String)
  | markReadFor (userId senderId : String)
deriving DecidableEq, Repr

/-- The body of a message-route response. -/
inductive MsgResponse
  | msgs (l : List Message)
  | msg (m : Message)
  | updated (n : Nat)
  | err (reason : String)
deriving DecidableEq, Repr

/-- The message router as mounted in `index.js` (line 41): no
authentication middleware is installed on it, so a request carries its
optional Authorization header along but every handler reads only the path
parameters and the body. The result is the HTTP status, the response body
and the resulting message store. -/
def messageRouter (q : MsgRequest) (authHeader : Option String)
    (store : List Message) (t : Nat) : Nat × MsgResponse × List Message :=
  match q with
  | .history a b => (200, .msgs (getMessages store a b), store)
  | .create s r c =>
    let out := createMessage store s r c t
    if out.2 == 201 then
      (201, .msg ⟨s.getD "", r.getD "", c.getD "", false, t⟩, out.1)
    else
      (400, .err "Sender, recipient, and content are required", store)
  | .markReadFor u s =>
    let out := markRead store u s
    (200, .updated out.2, out.1)

/-- The user-creation route POST / of `src/server/routes/userRoutes.js`
(lines 28-50): a missing username is a 400; a username already present
returns the existing record with a 200 and creates nothing; otherwise a
fresh record is appended and returned with a 201. The result is the HTTP
status, the returned user (when any) and the resulting user store. -/
def createUserRoute (users : List User) (username : Option String)
    (newId : String) (t : Nat) : Nat × Option User × List User :=
  if falsy username then (400, none, users)
  else
    match username with
    | some name =>
      match users.find? (fun u => u.username == name) with
      | some u => (200, some u, users)
      | none =>
        let nu : User := ⟨newId, name, "offline", none, t⟩
        (201, some nu, users ++ [nu])
    | none => (400, none, users)

/-- The status route PATCH /:id/status of `userRoutes.js` (lines 52-78):
a status other than online or offline is a 400; otherwise
`findByIdAndUpdate` stores the given status for the addressed user and,
when the status is offline, also stamps `lastSeen` with the current time;
a missing user is a 404. The result is the new user store and the HTTP
status. -/
def updateUserStatusRoute (users : List User) (id : String)
    (status : Option String) (now : Nat) : List User × Nat :=
  match status with
  | none => (users, 400)
  | some st =>
    if !(st == "online" || st == "offline") then (users, 400)
    else if (users.find? (fun u => u.id == id)).isSome then
      (users.map (fun u =>
        if u.id == id then
          { u with status := st,
                   lastSeen := if st == "offline" then some now else u.lastSeen }
        else u), 200)
    else (users, 404)

/-- The logout operation of `src/server/controller/authController.js`
(lines 136-153): look the user up; when present, store status offline and
stamp `lastSeen` with the current time; respond 200 either way. -/
def logout (users : List User) (userId : String) (now : Nat) :
    List User × Nat :=
  match users.find? (fun u => u.id == userId) with
  | some _ =>
    (users.map (fun u =>
      if u.id == userId then { u with status := "offline", lastSeen := some now }
      else u), 200)
  | none => (users, 200)

/-- The register operation of `authController.js` (lines 27-82), reduced to
its effect on the stored presence state: after the new record is saved its
status is set to online and saved again, before any socket connection for
that user exists. Validation failures and duplicate usernames leave the
store untouched. The result is the new user store and the HTTP status. -/
def register (users : List User) (username password : Option String)
    (newId : String) (t : Nat) : List User × Nat :=
  match username, password with
  | some name, some pw =>
    if name == "" then (users, 400)
    else if pw == "" then (users, 400)
    else if name.trim.length < 3 then (users, 400)
    else if pw.trim.length < 6 then (users, 400)
    else if (users.find? (fun u => u.username == name.trim)).isSome then (users, 400)
    else (users ++ [⟨newId, name.trim, "online", none, t⟩], 201)
  | _, _ => (users, 400)

/-- The send path of the client (`handleSendMessage` in
`src/client/src/App.tsx`, lines 332-376) combined with the server relay:
the client emits `message:send` over the socket, which the server relays
at once to the recipient room, and independently issues the HTTP store
request; the two are not sequenced on each other, so the deliveries are
computed before the storage outcome `storeOk` is known and the store is
extended only when storage succeeds. -/
def sendPipeline (users : List User) (conns : List Conn) (now : String)
    (h toU m : String) (store : List Message) (t : Nat) (storeOk : Bool) :
    List Delivery × List Message :=
  (stepDeliveries users conns now (.msgSend h toU m),
   if storeOk then (createMessage store (userOf conns h) (some toU) (some m) t).1
   else store)

/-! Helper lemmas. -/

theorem statusEmits_append (l1 l2 : List Emit) (u st : String) :
    statusEmits (l1 ++ l2) u st = statusEmits l1 u st + statusEmits l2 u st := by
  simp [statusEmits, List.filter_append]

theorem statusEmits_step_online (users : List User) (conns : List Conn)
    (now u : String) (e : ClientEvent) :
    statusEmits (sockStep users conns now e).emits u "online" = connectCount [e] u := by
  have hfo : (("offline" : String) == "online") = false := rfl
  cases e with
  | connect h v =>
    cases hv : v == u <;>
      simp [sockStep, statusEmits, connectCount, List.filter, hv]
  | msgSend h toU m =>
    cases hu : userOf conns h <;>
      simp [sockStep, hu, statusEmits, connectCount, List.filter]
  | typing h toU b =>
    cases hu : userOf conns h <;>
      simp [sockStep, hu, statusEmits, connectCount, List.filter]
  | disconnect h =>
    cases hu : userOf conns h <;>
      simp [sockStep, hu, statusEmits, connectCount, List.filter, hfo]

/-! Claim theorems. -/

/-- C1, counterexample: in the run where a second device of user `u`
connects while `u` is already online, the server emits two `user:status`
online events for `u`, not exactly one; the second join does not change
the emptiness of the connection group yet still produces a presence
event. -/
theorem C1_counterexample :
    statusEmits (sockRun [] [] "T"
      [.connect "h1" "u", .connect "h2" "u"]).emits "u" "online" = 2 := by decide

/-- C1, amended: the connection handler emits exactly one online
`user:status` event for every single connection of a user and exactly one
offline event for every disconnect of a live handle, regardless of whether
the join or leave changes the emptiness of the connection group: over any
trace the number of online emissions for `u` equals the number of
connections of `u`, and a disconnect of a handle registered to `u` emits
exactly the one offline event. -/
theorem C1_presence_event_per_connection (users : List User) (conns : List Conn)
    (now u handle : String) (tr : List ClientEvent) :
    statusEmits (sockRun users conns now tr).emits u "online" = connectCount tr u ∧
    (userOf conns handle = some u →
      (sockStep users conns now (.disconnect handle)).emits =
        [.toAll (.status u "offline")]) := by
  constructor
  · induction tr generalizing users conns with
    | nil => simp [sockRun, statusEmits, connectCount]
    | cons e es ih =>
      show statusEmits ((sockStep users conns now e).emits ++ _) u "online" = _
      rw [statusEmits_append, statusEmits_step_online, ih]
      cases e with
      | connect h v =>
        cases hv : v == u <;>
          simp [connectCount, List.filter, hv, Nat.add_comm]
      | msgSend h toU m => simp [connectCount, List.filter]
      | typing h toU b => simp [connectCount, List.filter]
      | disconnect h => simp [connectCount, List.filter]
  · intro hu
    simp [sockStep, hu]

/-- C1, witness for the amended theorem: the single live handle of user
`u` disconnects and exactly one offline event is emitted. -/
theorem C1_presence_witness :
    (sockStep [] [⟨"h1", "u"⟩] "T" (.disconnect "h1")).emits =
      [.toAll (.status "u" "offline")] :=
  (C1_presence_event_per_connection [] [⟨"h1", "u"⟩] "T" "u" "h1" []).2 (by decide)

/-- Membership in a store after a keyed update: a member of the mapped
store either is the image of a matching record or is an untouched record
whose key does not match. -/
theorem mem_update_map {users : List User} {id : String} {f : User → User} {v : User}
    (hv : v ∈ users.map (fun u => if u.id == id then f u else u)) :
    (∃ u, u ∈ users ∧ (u.id == id) = true ∧ v = f u) ∨
      (v ∈ users ∧ (v.id == id) = false) := by
  rcases List.mem_map.mp hv with ⟨u, hu, hval⟩
  cases h : u.id == id with
  | true => exact Or.inl ⟨u, hu, h, by rw [← hval]; simp [h]⟩
  | false =>
    refine Or.inr ?_
    have : v = u := by rw [← hval]; simp [h]
    subst this
    exact ⟨hu, h⟩

/-- A record with a given key exists in no store whose keyed lookup is
empty. -/
theorem not_mem_of_find?_id_none {users : List User} {id : String} {v : User}
    (hfind : users.find? (fun u => u.id == id) = none)
    (hv : v ∈ users) (hvid : v.id = id) : False := by
  have := List.find?_eq_none.mp hfind v hv
  simp [hvid] at this

/-- C4, counterexample: the status route stores status online for a user
from the HTTP side alone, while the connection registry is empty (its
group for that user is empty); and when one of two live devices of a user
disconnects, the broadcast carries status offline although the group is
still non-empty. The broadcast presence status is therefore not a pure
function of group emptiness, and the stored status is mutated
independently of the registry. -/
theorem C4_counterexample :
    (updateUserStatusRoute [⟨"u1", "alice", "offline", none, 0⟩] "u1"
        (some "online") 7).1 = [⟨"u1", "alice", "online", none, 0⟩] ∧
    group ([] : List Conn) "u1" = [] ∧
    (sockStep [] [⟨"h1", "u"⟩, ⟨"h2", "u"⟩] "T" (.disconnect "h1")).emits =
      [.toAll (.status "u" "offline")] ∧
    group (sockStep [] [⟨"h1", "u"⟩, ⟨"h2", "u"⟩] "T" (.disconnect "h1")).conns "u" ≠ [] := by
  decide

/-- C4, amended: presence status is separately stored state: the status
route records any requested online or offline status for the addressed
user without consulting the connection registry at all, and the
socket-layer broadcast status is determined by the triggering event kind
(a connection always broadcasts online), not by the emptiness of the
group. -/
theorem C4_status_separately_stored (users : List User) (id st : String) (now : Nat)
    (conns : List Conn) (h u now2 : String)
    (hst : st = "online" ∨ st = "offline") :
    (∀ v ∈ (updateUserStatusRoute users id (some st) now).1, v.id = id → v.status = st) ∧
    (sockStep users conns now2 (.connect h u)).emits = [.toAll (.status u "online")] := by
  refine ⟨?_, rfl⟩
  intro v hv hvid
  have hvalid : (st == "online" || st == "offline") = true := by
    rcases hst with rfl | rfl <;> rfl
  by_cases hfind : (users.find? (fun u0 => u0.id == id)).isSome
  · rw [updateUserStatusRoute] at hv
    simp only [hvalid, Bool.not_true, Bool.false_eq_true, if_false, hfind, if_true] at hv
    rcases mem_update_map hv with ⟨u0, _, _, rfl⟩ | ⟨_, hne⟩
    · rfl
    · simp [hvid] at hne
  · rw [Option.not_isSome_iff_eq_none] at hfind
    rw [updateUserStatusRoute] at hv
    simp only [hvalid, Bool.not_true, Bool.false_eq_true, if_false, hfind,
      Option.isSome_none, if_false] at hv
    exact (not_mem_of_find?_id_none hfind hv hvid).elim

/-- C4, witness: the amended theorem applied to a concrete store and a
concrete connecting device. -/
theorem C4_status_witness :
    (sockStep [] [] "T0" (.connect "hx" "ux")).emits =
      [.toAll (.status "ux" "online")] :=
  (C4_status_separately_stored [] "ux" "online" 3 [] "hx" "ux" "T0" (Or.inl rfl)).2

/-- C5, counterexample: the only device of user `u` disconnects, the
connection group becomes empty, yet the socket layer leaves the user
directory completely untouched: no last-seen timestamp is written on the
offline transition. -/
theorem C5_counterexample :
    group (sockStep [⟨"u", "al", "online", none, 0⟩] [⟨"h1", "u"⟩] "T"
        (.disconnect "h1")).conns "u" = [] ∧
    (sockStep [⟨"u", "al", "online", none, 0⟩] [⟨"h1", "u"⟩] "T"
        (.disconnect "h1")).users = [⟨"u", "al", "online", none, 0⟩] := by
  decide

/-- C5, amended: the socket layer never writes to the user directory — in
particular a disconnect that empties a group writes no last-seen
timestamp; the last-seen timestamp is written by the HTTP logout
operation, which stores status offline and the current time for the
addressed user. -/
theorem C5_no_directory_write_on_disconnect (users : List User) (conns : List Conn)
    (now : String) (e : ClientEvent) (uid : String) (t : Nat) :
    (sockStep users conns now e).users = users ∧
    (∀ v ∈ (logout users uid t).1, v.id = uid →
      v.status = "offline" ∧ v.lastSeen = some t) := by
  constructor
  · cases e with
    | connect h u => rfl
    | msgSend h toU m => cases hu : userOf conns h <;> simp [sockStep, hu]
    | typing h toU b => cases hu : userOf conns h <;> simp [sockStep, hu]
    | disconnect h => cases hu : userOf conns h <;> simp [sockStep, hu]
  · intro v hv hvid
    rw [logout] at hv
    cases hfind : users.find? (fun u0 => u0.id == uid) with
    | none =>
      rw [hfind] at hv
      exact (not_mem_of_find?_id_none hfind hv hvid).elim
    | some u0 =>
      rw [hfind] at hv
      rcases mem_update_map hv with ⟨u1, _, _, rfl⟩ | ⟨_, hne⟩
      · exact ⟨rfl, rfl⟩
      · simp [hvid] at hne

/-- C5, witness: the amended theorem applied to a one-device registry and
a one-user directory; logout stamps the last-seen time. -/
theorem C5_no_write_witness :
    (⟨"u", "al", "offline", some 9, 0⟩ : User).status = "offline" ∧
    (⟨"u", "al", "offline", some 9, 0⟩ : User).lastSeen = some 9 :=
  (C5_no_directory_write_on_disconnect [⟨"u", "al", "online", none, 0⟩]
      [⟨"h1", "u"⟩] "T" (.disconnect "h1") "u" 9).2
    ⟨"u", "al", "offline", some 9, 0⟩ (by decide) rfl

/-- C2: a `message:send` from a live handle of the sender is immediately
relayed to every connection of the recipient group, carrying the sender
id, the content and the server-assigned timestamp, for either storage
outcome; independently, the storage request appends the durable record
exactly when storage succeeds, and a storage failure leaves the store
unchanged while the deliveries are the same as on success. -/
theorem C2_relay_and_storage_independent (users : List User) (conns : List Conn)
    (now h uid toU m : String) (store : List Message) (t : Nat)
    (hh : userOf conns h = some uid) (hu : uid ≠ "") (hto : toU ≠ "") (hm : m ≠ "") :
    (∀ ok : Bool, (sendPipeline users conns now h toU m store t ok).1 =
        (group conns toU).map (fun c => ⟨c.handle, Wire.msgReceive uid m now⟩)) ∧
    (sendPipeline users conns now h toU m store t false).2 = store ∧
    (sendPipeline users conns now h toU m store t true).2 =
      store ++ [⟨uid, toU, m, false, t⟩] := by
  have hfu : falsy (some uid) = false := by simp [falsy, hu]
  have hft : falsy (some toU) = false := by simp [falsy, hto]
  have hfm : falsy (some m) = false := by simp [falsy, hm]
  refine ⟨?_, rfl, ?_⟩
  · intro ok
    simp [sendPipeline, stepDeliveries, sockStep, hh, deliver, group]
  · simp [sendPipeline, hh, createMessage, hfu, hft, hfm]

/-- C2, witness: user A with live handle hS sends to user B who has the
single live handle hR; the delivery reaches hR with the sender id, the
content and the timestamp whether storage succeeds or fails, and the
store grows only in the success case. -/
theorem C2_relay_witness :
    (sendPipeline [] [⟨"hS", "A"⟩, ⟨"hR", "B"⟩] "T" "hS" "B" "hi" [] 5 false).1 =
      [⟨"hR", Wire.msgReceive "A" "hi" "T"⟩] ∧
    (sendPipeline [] [⟨"hS", "A"⟩, ⟨"hR", "B"⟩] "T" "hS" "B" "hi" [] 5 false).2 = [] ∧
    (sendPipeline [] [⟨"hS", "A"⟩, ⟨"hR", "B"⟩] "T" "hS" "B" "hi" [] 5 true).2 =
      [⟨"A", "B", "hi", false, 5⟩] := by
  have main := C2_relay_and_storage_independent [] [⟨"hS", "A"⟩, ⟨"hR", "B"⟩]
    "T" "hS" "A" "B" "hi" [] 5 (by decide) (by decide) (by decide) (by decide)
  exact ⟨(main.1 false).trans (by decide), main.2.1, main.2.2⟩

/-- C3: an admission attempt succeeds exactly when a token is supplied,
the token verifies to a subject id under the server secret, and that
subject exists in the user directory at call time; in every other case
the middleware rejects the attempt with the authentication error, never
admitting silently. -/
theorem C3_admission_iff (verify : String → Option String)
    (findUser : String → Option User) (token : Option String) :
    ((∃ uid, socketAuth verify findUser token = .ok uid) ↔
      (∃ t uid, token = some t ∧ verify t = some uid ∧ (findUser uid).isSome = true)) ∧
    ((¬ ∃ uid, socketAuth verify findUser token = .ok uid) →
      socketAuth verify findUser token = .error "Authentication error") := by
  cases token with
  | none => simp [socketAuth]
  | some t =>
    cases hv : verify t with
    | none => simp [socketAuth, hv]
    | some uid =>
      cases hf : findUser uid with
      | none => simp [socketAuth, hv, hf]
      | some usr => simp [socketAuth, hv, hf]

/-- C3, witness: with no token supplied the middleware rejects the
attempt with the authentication error. -/
theorem C3_admission_witness :
    socketAuth (fun _ => none) (fun _ => none) none = .error "Authentication error" :=
  (C3_admission_iff (fun _ => none) (fun _ => none) none).2
    (fun hex => hex.elim (fun _ hok => Except.noConfusion hok))

/-- C6: a relayed `message:receive` or inbound `user:typing` targeted at
user X is delivered only on the handles of connections in the group of X —
with distinct handles, no connection of another user ever observes it —
and when X has zero live connections the relay delivers nothing. -/
theorem C6_room_isolation (users : List User) (conns : List Conn)
    (now h X m : String) (b : Bool)
    (hnd : conns.Pairwise (fun c1 c2 => c1.handle ≠ c2.handle)) :
    (∀ c ∈ conns, c.userId ≠ X →
      (∀ d ∈ stepDeliveries users conns now (.msgSend h X m), d.handle ≠ c.handle) ∧
      (∀ d ∈ stepDeliveries users conns now (.typing h X b), d.handle ≠ c.handle)) ∧
    (group conns X = [] →
      stepDeliveries users conns now (.msgSend h X m) = [] ∧
      stepDeliveries users conns now (.typing h X b) = []) := by
  have hsym : Symmetric (fun c1 c2 : Conn => c1.handle ≠ c2.handle) :=
    fun _ _ hab => Ne.symm hab
  have key : ∀ ev : Wire, ∀ d ∈ (conns.filter (fun c => c.userId == X)).map
      (fun c => (⟨c.handle, ev⟩ : Delivery)),
      ∃ c0, c0 ∈ conns ∧ c0.userId = X ∧ d.handle = c0.handle := by
    intro ev d hd
    rcases List.mem_map.mp hd with ⟨c0, hc0, rfl⟩
    rcases List.mem_filter.mp hc0 with ⟨hmem, hx⟩
    exact ⟨c0, hmem, by simpa using hx, rfl⟩
  constructor
  · intro c hc hcx
    constructor
    · intro d hd
      cases hu : userOf conns h with
      | none => simp [stepDeliveries, sockStep, hu] at hd
      | some uid =>
        simp only [stepDeliveries, sockStep, hu] at hd
        rcases key (Wire.msgReceive uid m now) d (by simpa [deliver] using hd)
          with ⟨c0, hc0m, hc0x, hdh⟩
        rw [hdh]
        have hne : c0 ≠ c := fun he => hcx (he ▸ hc0x)
        exact hnd.forall hsym hc0m hc hne
    · intro d hd
      cases hu : userOf conns h with
      | none => simp [stepDeliveries, sockStep, hu] at hd
      | some uid =>
        simp only [stepDeliveries, sockStep, hu] at hd
        rcases key (Wire.typing uid b) d (by simpa [deliver] using hd)
          with ⟨c0, hc0m, hc0x, hdh⟩
        rw [hdh]
        have hne : c0 ≠ c := fun he => hcx (he ▸ hc0x)
        exact hnd.forall hsym hc0m hc hne
  · intro hempty
    have hnil : conns.filter (fun c => c.userId == X) = [] := hempty
    constructor <;>
      · cases hu : userOf conns h with
        | none => simp [stepDeliveries, sockStep, hu]
        | some uid => simp [stepDeliveries, sockStep, hu, deliver, hnil]

/-- C6, witness: with user A sending to the absent user Z, the relay
delivers nothing, and the delivery list of a message targeted at B never
reaches the handle of A. -/
theorem C6_room_isolation_witness :
    stepDeliveries [] [⟨"h1", "A"⟩] "T" (.msgSend "h1" "Z" "hi") = [] ∧
    stepDeliveries [] [⟨"h1", "A"⟩] "T" (.typing "h1" "Z" true) = [] :=
  (C6_room_isolation [] [⟨"h1", "A"⟩] "T" "h1" "Z" "hi" true (by decide)).2 (by decide)

/-- C7: the history route returns exactly the stored messages of the
conversation between the two users — those whose (sender, recipient) pair
is (a, b) or (b, a) — as a permutation of that filtered store, sorted by
creation time ascending. -/
theorem C7_history_filter_sorted (store : List Message) (a b : String) :
    List.Perm (getMessages store a b) (store.filter (betweenPred a b)) ∧
    List.Sorted byCreatedAt (getMessages store a b) ∧
    (∀ m : Message, m ∈ getMessages store a b ↔
      m ∈ store ∧ ((m.sender = a ∧ m.recipient = b) ∨ (m.sender = b ∧ m.recipient = a))) := by
  refine ⟨List.perm_insertionSort _ _, List.sorted_insertionSort _ _, ?_⟩
  intro m
  rw [getMessages, List.mem_insertionSort, List.mem_filter]
  simp [betweenPred]

/-- Pointwise form of the mark-read update: the boolean filter of the
route (which skips records already read) agrees with flipping the read
flag of every record from the sender to the recipient. -/
theorem markRead_entry (rid sid : String) (m : Message) :
    (if m.recipient == rid && m.sender == sid && !m.read
     then { m with read := true } else m) =
    (if m.recipient = rid ∧ m.sender = sid then { m with read := true } else m) := by
  cases m with
  | mk s r c rd ca =>
    by_cases h1 : r = rid <;> by_cases h2 : s = sid <;> cases rd <;>
      simp [h1, h2]

/-- C8: the bulk mark-read operation deletes nothing (the store keeps its
length) and rewrites each position as follows: a record whose recipient
and sender match gets its read flag set to true and every other field
kept; any other record is untouched; and the creation route only appends,
so no existing record is ever edited or deleted. -/
theorem C8_markRead_frame (store : List Message) (rid sid : String) :
    ((markRead store rid sid).1.length = store.length) ∧
    (∀ i : Nat, (markRead store rid sid).1[i]? =
      (store[i]?).map (fun m =>
        if m.recipient = rid ∧ m.sender = sid then { m with read := true } else m)) ∧
    (∀ s r c t, ∃ tail, (createMessage store s r c t).1 = store ++ tail) := by
  have hmap : (markRead store rid sid).1 = store.map (fun m =>
      if m.recipient = rid ∧ m.sender = sid then { m with read := true } else m) := by
    exact List.map_congr_left (fun m _ => markRead_entry rid sid m)
  refine ⟨by rw [hmap]; simp, ?_, ?_⟩
  · intro i
    rw [hmap]
    exact List.getElem?_map _ _ _
  · intro s r c t
    unfold createMessage
    split
    · exact ⟨[], (List.append_nil store).symm⟩
    · split
      · exact ⟨_, rfl⟩
      · exact ⟨[], (List.append_nil store).symm⟩

/-- C9: the message router carries no authentication middleware; the
status, the response body and the resulting store of every message-route
request are the same whatever Authorization header accompanies it,
including none at all. -/
theorem C9_message_routes_ignore_auth (q : MsgRequest) (a1 a2 : Option String)
    (store : List Message) (t : Nat) :
    messageRouter q a1 store t = messageRouter q a2 store t := by
  cases q <;> rfl

/-- C10: posting a username that an existing record already carries
creates nothing and answers 200 with that existing record; a record is
created, appended and answered 201 exactly when the username is free. -/
theorem C10_create_user (users : List User) (name newId : String) (t : Nat)
    (hne : name ≠ "") :
    ((∃ u ∈ users, u.username = name) →
      (createUserRoute users (some name) newId t).1 = 200 ∧
      (createUserRoute users (some name) newId t).2.2 = users ∧
      (∃ u ∈ users, u.username = name ∧
        (createUserRoute users (some name) newId t).2.1 = some u)) ∧
    ((¬ ∃ u ∈ users, u.username = name) →
      (createUserRoute users (some name) newId t).1 = 201 ∧
      (createUserRoute users (some name) newId t).2.2 =
        users ++ [⟨newId, name, "offline", none, t⟩]) := by
  have hfalsy : falsy (some name) = false := by simp [falsy, hne]
  cases hfind : users.find? (fun u => u.username == name) with
  | some u0 =>
    have hmem : u0 ∈ users := List.mem_of_find?_eq_some hfind
    have hp := List.find?_some hfind
    have hname : u0.username = name := by simpa using hp
    constructor
    · intro _
      refine ⟨?_, ?_, u0, hmem, hname, ?_⟩ <;>
        simp [createUserRoute, hfalsy, hfind]
    · intro hnex
      exact absurd ⟨u0, hmem, hname⟩ hnex
  | none =>
    constructor
    · rintro ⟨u0, hmem, hname⟩
      have := List.find?_eq_none.mp hfind u0 hmem
      simp [hname] at this
    · intro _
      constructor <;> simp [createUserRoute, hfalsy, hfind]

/-- C10, witness: both branches at a concrete store — posting the taken
username alice changes nothing and answers 200, posting the free username
bob appends the new record and answers 201. -/
theorem C10_create_user_witness :
    ((createUserRoute [⟨"u1", "alice", "offline", none, 0⟩] (some "alice") "u9" 3).1 = 200 ∧
     (createUserRoute [⟨"u1", "alice", "offline", none, 0⟩] (some "alice") "u9" 3).2.2 =
       [⟨"u1", "alice", "offline", none, 0⟩]) ∧
    ((createUserRoute [⟨"u1", "alice", "offline", none, 0⟩] (some "bob") "u9" 3).1 = 201 ∧
     (createUserRoute [⟨"u1", "alice", "offline", none, 0⟩] (some "bob") "u9" 3).2.2 =
       [⟨"u1", "alice", "offline", none, 0⟩] ++ [⟨"u9", "bob", "offline", none, 3⟩]) := by
  have h1 := (C10_create_user [⟨"u1", "alice", "offline", none, 0⟩] "alice" "u9" 3
    (by decide)).1 ⟨⟨"u1", "alice", "offline", none, 0⟩, by decide, rfl⟩
  have h2 := (C10_create_user [⟨"u1", "alice", "offline", none, 0⟩] "bob" "u9" 3
    (by decide)).2 (by decide)
  exact ⟨⟨h1.1, h1.2.1⟩, h2⟩

end ChatApp
